import Mathlib

/-!
Shallow embedding of the OAuth2 client-credentials subsystem and the A2A
request-dispatcher/session subsystem of the travelagent-a2a repository
(`src/a2a_protocol/oauth2.py` and `src/a2a_protocol/executor.py`), together
with theorems settling the spec claims about them.

External collaborators are modelled as follows:
* `hashlib.sha256(...).hexdigest()` is modelled by `hash_secret`, an arbitrary
  fixed deterministic string function (the code only ever compares hashes of
  equal/unequal secrets, never inverts them);
* the PyJWT encode/decode pair is modelled symbolically: an encoded token is
  either a payload together with its MAC over the module signing key
  (`TokenStr.jwt`) or an arbitrary non-JWT string (`TokenStr.malformed`);
  `jwt.decode` checks the MAC, the `exp` claim against the current time and
  the expected audience, exactly the checks PyJWT performs for the arguments
  used at the call site;
* wall-clock time (`time.time()`) and the random `jti` (`secrets.token_urlsafe`)
  are passed as explicit parameters.
-/

set_option autoImplicit false

namespace TravelAgentA2A

/-- A deterministic string digest, standing in for SHA-256 / HMAC-SHA256.
Only determinism and comparability are used by the code under verification. -/
def strHash (s : String) : Nat :=
  s.foldl (fun a c => (a * 131 + c.toNat) % 1000000007) 7

/-- Models `ClientRegistry._hash_secret`: SHA-256 hex digest of the secret. -/
def hash_secret (secret : String) : String :=
  toString (strHash ("sha256:" ++ secret))

/-- The default OAuth2 scope (`OAUTH2_SCOPE = "a2a:travel-agent"`). -/
def OAUTH2_SCOPE : String := "a2a:travel-agent"

/-- Token lifetime in seconds (`TOKEN_EXPIRY_SECONDS`, default 3600). -/
def TOKEN_EXPIRY_SECONDS : Int := 3600

/-- Models the module-level `JWT_SECRET_KEY` (environment-provided or random,
fixed for the lifetime of the process). -/
def JWT_SECRET_KEY : String := "dev-jwt-signing-secret"

/-- Models the `OAuth2Client` dataclass (`created_at` carries no behaviour and
is omitted). -/
structure OAuth2Client where
  client_id : String
  client_secret_hash : String
  name : String
  scopes : List String
  enabled : Bool
deriving Repr, DecidableEq

/-- Python `dict` assignment `m[k] = v`: overwrite in place if the key is
present, append otherwise (Python dicts preserve insertion order). -/
def dictSet {α : Type} (m : List (String × α)) (k : String) (v : α) :
    List (String × α) :=
  if m.any (fun p => p.1 == k) then
    m.map (fun p => if p.1 == k then (k, v) else p)
  else
    m ++ [(k, v)]

/-- Models `ClientRegistry`: an insertion-ordered mapping from client id to
client, as a Python dict. -/
structure ClientRegistry where
  clients : List (String × OAuth2Client)
deriving Repr, DecidableEq

/-- Models `ClientRegistry.register_client` (`scopes or [OAUTH2_SCOPE]`:
`None` and the empty list both fall back to the default scope list). -/
def register_client (reg : ClientRegistry) (client_id client_secret name : String)
    (scopes : Option (List String)) : ClientRegistry :=
  let client : OAuth2Client :=
    { client_id := client_id
      client_secret_hash := hash_secret client_secret
      name := name
      scopes := match scopes with
        | some (s :: rest) => s :: rest
        | _ => [OAUTH2_SCOPE]
      enabled := true }
  { clients := dictSet reg.clients client_id client }

/-- Models `ClientRegistry.validate_client`: returns the client only if it
exists, is enabled and the presented secret hashes to the stored hash. -/
def validate_client (reg : ClientRegistry) (client_id client_secret : String) :
    Option OAuth2Client :=
  match reg.clients.lookup client_id with
  | none => none
  | some client =>
    if !client.enabled then none
    else if client.client_secret_hash != hash_secret client_secret then none
    else some client

/-- The JWT claim set built by `generate_access_token`. -/
structure JwtPayload where
  client_id : String
  scopes : List String
  exp : Int
  iat : Int
  jti : String
  iss : String
  aud : String
deriving Repr, DecidableEq

/-- Canonical serialisation of a payload, used only as MAC input. -/
def encodeJwtPayload (p : JwtPayload) : String :=
  p.client_id ++ "|" ++ String.intercalate "," p.scopes ++ "|" ++
    toString p.exp ++ "|" ++ toString p.iat ++ "|" ++ p.jti ++ "|" ++
    p.iss ++ "|" ++ p.aud

/-- HS256 signature over the payload, modelled as a keyed digest. -/
def jwtSign (key : String) (p : JwtPayload) : Nat :=
  strHash (key ++ "." ++ encodeJwtPayload p)

/-- A token string: either a well-formed JWT (payload plus signature bytes)
or any other string. -/
inductive TokenStr where
  | jwt (payload : JwtPayload) (sig : Nat)
  | malformed (raw : String)
deriving Repr, DecidableEq

/-- Models `jwt.encode(payload, key, algorithm="HS256")`. -/
def jwt_encode (p : JwtPayload) (key : String) : TokenStr :=
  .jwt p (jwtSign key p)

/-- Models `validate_access_token` (`oauth2.py`): `jwt.decode` with the module
key, HS256 and `audience="travel-agent-a2a"`; every PyJWT failure mode
(malformed token, bad signature, expired `exp`, wrong `aud`) is caught and
mapped to `none`.  PyJWT rejects when `exp <= now`. -/
def validate_access_token (now : Int) (token : TokenStr) : Option JwtPayload :=
  match token with
  | .malformed _ => none
  | .jwt p sig =>
    if sig != jwtSign JWT_SECRET_KEY p then none
    else if p.exp ≤ now then none
    else if p.aud != "travel-agent-a2a" then none
    else some p

/-- The dict returned by `generate_access_token`. -/
structure TokenResponse where
  access_token : TokenStr
  token_type : String
  expires_in : Int
  scope : String
deriving Repr, DecidableEq

/-- The scope-narrowing step of `generate_access_token`: `if requested_scopes:`
is Python truthiness, so both `None` and `[]` fall back to the client's full
allowed list. -/
def computeGrantedScopes (client : OAuth2Client)
    (requested_scopes : Option (List String)) : List String :=
  match requested_scopes with
  | some (s :: rest) => (s :: rest).filter (fun x => client.scopes.contains x)
  | _ => client.scopes

/-- Models `generate_access_token`: current time and the random `jti` are
explicit parameters. -/
def generate_access_token (client : OAuth2Client)
    (requested_scopes : Option (List String)) (now : Int) (jti : String) :
    TokenResponse :=
  let granted := computeGrantedScopes client requested_scopes
  let payload : JwtPayload :=
    { client_id := client.client_id
      scopes := granted
      exp := now + TOKEN_EXPIRY_SECONDS
      iat := now
      jti := jti
      iss := "travel-agent-oauth2"
      aud := "travel-agent-a2a" }
  { access_token := jwt_encode payload JWT_SECRET_KEY
    token_type := "Bearer"
    expires_in := TOKEN_EXPIRY_SECONDS
    scope := String.intercalate " " granted }

/-- The fields of the parsed token-endpoint request body that the handler
reads (`body.get(...)`); a missing key is `none`.  JSON and form bodies are
handled identically once parsed. -/
structure TokenRequestBody where
  grant_type : Option String
  client_id : Option String
  client_secret : Option String
  scope : Option String
deriving Repr, DecidableEq

/-- A token-endpoint request: the parsed body plus the credentials decoded
from a `Basic` Authorization header when one is present and base64-decodes to
`user:pass` (`none` covers an absent, non-Basic or undecodable header). -/
structure TokenRequest where
  body : TokenRequestBody
  basicAuth : Option (String × String)
deriving Repr, DecidableEq

/-- Python truthiness of an optional string: `None` and `""` are falsy. -/
def strFalsy (o : Option String) : Bool :=
  match o with
  | none => true
  | some s => s == ""

/-- The credential-extraction step of `token_endpoint`: body credentials are
used unless one of them is falsy, in which case a well-formed Basic header
overrides both. -/
def effectiveCredentials (req : TokenRequest) : Option String × Option String :=
  let cid := req.body.client_id
  let csec := req.body.client_secret
  if strFalsy cid || strFalsy csec then
    match req.basicAuth with
    | some (u, p) => (some u, some p)
    | none => (cid, csec)
  else
    (cid, csec)

/-- A JSON response from the token endpoint or the middleware: an HTTP status
plus either a structured `error` code or a successful token response. -/
inductive EndpointResponse where
  | err (status : Nat) (error : String)
  | ok (tr : TokenResponse)
deriving Repr, DecidableEq

/-- Models `token_endpoint` (`oauth2.py`): credential extraction (body, then
Basic header), then grant-type check, then missing-credential check, then
registry validation, then scope parsing and token generation.
`scope_str.split()` is Python whitespace split, dropping empty fields. -/
def token_endpoint (reg : ClientRegistry) (req : TokenRequest) (now : Int)
    (jti : String) : EndpointResponse :=
  let creds := effectiveCredentials req
  if req.body.grant_type != some "client_credentials" then
    .err 400 "unsupported_grant_type"
  else if strFalsy creds.1 || strFalsy creds.2 then
    .err 400 "invalid_request"
  else
    match validate_client reg (creds.1.getD "") (creds.2.getD "") with
    | none => .err 401 "invalid_client"
    | some client =>
      let scopeStr := (req.body.scope.getD "")
      let requested : Option (List String) :=
        if scopeStr != "" then
          some ((scopeStr.splitOn " ").filter (fun s => s != ""))
        else none
      .ok (generate_access_token client requested now jti)

/-- The Authorization header of an inbound request, as the middleware
classifies it: absent, `Bearer <token>` (the token is the remainder after the
7-character prefix), or any other string (including `Basic ...` and a bare
`Bearer` with no trailing space). -/
inductive AuthHeader where
  | absent
  | bearer (token : TokenStr)
  | other (raw : String)
deriving Repr, DecidableEq

/-- An inbound HTTP request as seen by `OAuth2Middleware.dispatch`. -/
structure HttpRequest where
  path : String
  method : String
  auth : AuthHeader
deriving Repr, DecidableEq

/-- `OAuth2Middleware.PUBLIC_PATHS`. -/
def PUBLIC_PATHS : List String :=
  ["/.well-known/agent-card.json", "/.well-known/agent.json",
   "/oauth/token", "/health"]

/-- The outcome of `OAuth2Middleware.dispatch` for one request. -/
inductive DispatchOutcome where
  /-- The request was handed to `token_endpoint` with no bearer check. -/
  | tokenGrant
  /-- `call_next` was invoked with no identity attached. -/
  | passThrough
  /-- A 401 JSON error response with the given error code. -/
  | reject (status : Nat) (error : String)
  /-- `call_next` was invoked with `oauth2_client_id` and `oauth2_scopes`
  attached to `request.state`. -/
  | authenticated (client_id : String) (scopes : List String)
deriving Repr, DecidableEq

/-- Models `OAuth2Middleware.dispatch`: token endpoint first, then the public
allow-list, then GET on root, then (when `require_auth`) the bearer check. -/
def dispatch (require_auth : Bool) (now : Int) (req : HttpRequest) :
    DispatchOutcome :=
  if req.path == "/oauth/token" then
    .tokenGrant
  else if PUBLIC_PATHS.contains req.path then
    .passThrough
  else if req.method == "GET" && req.path == "/" then
    .passThrough
  else if require_auth then
    match req.auth with
    | .bearer token =>
      match validate_access_token now token with
      | none => .reject 401 "invalid_token"
      | some payload => .authenticated payload.client_id payload.scopes
    | _ => .reject 401 "unauthorized"
  else
    .passThrough

/-- An attribute mapping (`user_context`): a Python dict from attribute name
to value, insertion-ordered. -/
abbrev AttrMap : Type := List (String × String)

/-- Python `dict.update(new)`: set each key of `new` in order, last write
wins. -/
def dictUpdate (m new : AttrMap) : AttrMap :=
  new.foldl (fun acc p => dictSet acc p.1 p.2) m

/-- The `root` of an A2A `Part`: a `TextPart` (has a `text` attribute) or a
`DataPart`/`FilePart` (has none). -/
inductive PartRoot where
  | text (s : String)
  | data
  | file
deriving Repr, DecidableEq

/-- One element of `message.parts` as `_extract_message_text` probes it: a
wrapper with an optional `root` (`part.root` may be `None`), or a bare object
with an optional direct `text` attribute. -/
inductive MsgPart where
  | rooted (root : Option PartRoot)
  | bare (text : Option String)
deriving Repr, DecidableEq

/-- The text contributed by one part: `root.text` when the root exists and has
a `text` attribute, the direct `text` attribute otherwise. -/
def partTextOf (part : MsgPart) : Option String :=
  match part with
  | .rooted (some (.text s)) => some s
  | .rooted _ => none
  | .bare t => t

/-- An A2A message as the extractor reads it. -/
structure A2AMessage where
  parts : List MsgPart
deriving Repr, DecidableEq

/-- Python `str.strip()`: drop leading and trailing whitespace (modelled by
structural recursion over the character list so that it evaluates in the
kernel). -/
def pyStrip (s : String) : String :=
  ⟨((s.data.dropWhile Char.isWhitespace).reverse.dropWhile
      Char.isWhitespace).reverse⟩

/-- The space-join-and-strip of all text-bearing parts
(`" ".join(text_parts).strip()`). -/
def joinedPartsText (m : A2AMessage) : String :=
  pyStrip (String.intercalate " " (m.parts.filterMap partTextOf))

/-- Models `TravelAgentExecutor._extract_message_text`: empty string when the
message is absent or has no parts, otherwise the space-joined trimmed text of
its text-bearing parts. -/
def extract_message_text (message : Option A2AMessage) : String :=
  match message with
  | none => ""
  | some m =>
    if m.parts.isEmpty then ""
    else joinedPartsText m

/-- One stored conversation context (an entry of `self._contexts`): the
message history as `(role, content)` pairs and the saved `user_context`. -/
structure ConversationContext where
  context_id : String
  history : List (String × String)
  user_context : AttrMap
deriving Repr, DecidableEq

/-- The mutable state of a `TravelAgentExecutor`: the per-context table
`self._contexts` and the shared `self.travel_agent.user_context` (a single
`TravelAgent` instance serves every context). -/
structure ExecutorState where
  contexts : List (String × ConversationContext)
  agentCtx : AttrMap
deriving Repr, DecidableEq

/-- The initial executor state (`TravelAgentExecutor.__init__` /
`TravelAgent.__init__`): no stored contexts, empty agent context. -/
def initialExecutorState : ExecutorState :=
  { contexts := [], agentCtx := [] }

/-- The resolved conversation id used by `_get_or_create_context`. -/
def resolve_context_id (context_id : Option String) (freshId : String) : String :=
  match context_id with
  | none => freshId
  | some c => if c == "" then freshId else c

/-- Models `TravelAgentExecutor._get_or_create_context`: a falsy id is
replaced by a fresh UUID (passed explicitly as `freshId`); an unknown id is
bound to a new empty context.  Returns the resolved id and the updated
state. -/
def get_or_create_context (context_id : Option String) (freshId : String)
    (st : ExecutorState) : String × ExecutorState :=
  let cid := resolve_context_id context_id freshId
  match st.contexts.lookup cid with
  | some _ => (cid, st)
  | none =>
    let fresh : ConversationContext :=
      { context_id := cid, history := [], user_context := [] }
    (cid, { st with contexts := dictSet st.contexts cid fresh })

/-- The business layer (`TravelAgent.process_message` together with
`ConversationHandler.extract_context`), abstracted: `extractAttrs m` is the
attribute set the extractor derives from the message text alone (applied to
the current context with last-write-wins, `extract_context` copies and
overwrites), and `reply m ctx` is the response produced from the message and
the updated context, or an exception. -/
structure BusinessLayer where
  extractAttrs : String → AttrMap
  reply : String → AttrMap → Except String String

/-- Models `TravelAgent.process_message` acting on the shared
`self.user_context`: the context is updated from the message first, then the
response is computed from the message and the updated context.  Returns the
new agent context (updated even when the reply raises, since the update
precedes the intent handlers) and the reply outcome. -/
def agent_process_message (biz : BusinessLayer) (user_message : String)
    (agentCtx : AttrMap) : AttrMap × Except String String :=
  let newCtx := dictUpdate agentCtx (biz.extractAttrs user_message)
  (newCtx, biz.reply user_message newCtx)

/-- Models `TravelAgentExecutor._process_message` for the context `cid`
(already resolved by `get_or_create_context`): append the user turn, push the
stored `user_context` into the shared agent when non-empty, run the agent,
and on success save the agent context back and append the agent turn.  The
`Except` result carries the propagated exception, to be caught in
`execute`.  Also returns the `(message, context)` pair passed to the business
layer, recording the call for the theorems. -/
def executor_process_message (biz : BusinessLayer) (user_message : String)
    (cid : String) (st : ExecutorState) :
    ExecutorState × Except String String × (String × AttrMap) :=
  match st.contexts.lookup cid with
  | none => (st, .error "missing context", (user_message, []))
  | some ctx =>
    let ctx1 := { ctx with history := ctx.history ++ [("user", user_message)] }
    let agent0 :=
      if ctx1.user_context.isEmpty then st.agentCtx
      else dictUpdate st.agentCtx ctx1.user_context
    let res := agent_process_message biz user_message agent0
    let agent1 := res.1
    match res.2 with
    | .error e =>
      ({ contexts := dictSet st.contexts cid ctx1, agentCtx := agent1 },
       .error e, (user_message, agent1))
    | .ok response =>
      let ctx2 :=
        { ctx1 with
          user_context := agent1
          history := ctx1.history ++ [("agent", response)] }
      ({ contexts := dictSet st.contexts cid ctx2, agentCtx := agent1 },
       .ok response, (user_message, agent1))

/-- A2A task states. -/
inductive TaskState where
  | submitted
  | working
  | completed
  | failed
  | canceled
deriving Repr, DecidableEq

/-- One `update_status` event pushed to the event queue. -/
structure StatusEvent where
  state : TaskState
  message : String
deriving Repr, DecidableEq

/-- Whether a task state is terminal. -/
def TaskState.isTerminal (s : TaskState) : Bool :=
  match s with
  | .completed | .failed | .canceled => true
  | _ => false

/-- The observable outcome of one `execute` call: the status events emitted
in order, the executor state afterwards, and the `(message, context)` pairs
handed to the business layer. -/
structure ExecOutcome where
  events : List StatusEvent
  state : ExecutorState
  businessCalls : List (String × AttrMap)
deriving Repr, DecidableEq

/-- The fixed `working` notice. -/
def workingNotice : String := "Processing your travel request..."

/-- The fixed clarifying reply for empty input. -/
def emptyInputReply : String :=
  "I didn't receive a message. Please send your travel question or request."

/-- Models `TravelAgentExecutor.execute`: resolve the context, emit
`working`, extract the text; on empty text emit `completed` with the
clarifying reply; otherwise run the business layer and emit `completed` with
its reply, or `failed` with the wrapped exception text when it raises. -/
def executor_execute (biz : BusinessLayer) (message : Option A2AMessage)
    (context_id : Option String) (freshId : String) (st : ExecutorState) :
    ExecOutcome :=
  let r := get_or_create_context context_id freshId st
  let st1 := r.2
  let user_message := extract_message_text message
  if user_message == "" then
    { events := [⟨.working, workingNotice⟩, ⟨.completed, emptyInputReply⟩]
      state := st1
      businessCalls := [] }
  else
    let pr := executor_process_message biz user_message r.1 st1
    match pr.2.1 with
    | .ok response =>
      { events := [⟨.working, workingNotice⟩, ⟨.completed, response⟩]
        state := pr.1
        businessCalls := [pr.2.2] }
    | .error e =>
      { events := [⟨.working, workingNotice⟩,
                   ⟨.failed, "I encountered an error processing your request: " ++ e⟩]
        state := pr.1
        businessCalls := [pr.2.2] }

/-- Models `TravelAgentExecutor.clear_context`: delete the table entry when
present, then reset the shared agent context
(`TravelAgent.reset_conversation` sets `user_context = {}`). -/
def clear_context (context_id : String) (st : ExecutorState) : ExecutorState :=
  { contexts :=
      if st.contexts.any (fun p => p.1 == context_id) then
        st.contexts.filter (fun p => p.1 != context_id)
      else st.contexts
    agentCtx := [] }

/-- Keys of an association list are pairwise distinct (the invariant every
Python dict maintains). -/
def NodupKeys {α : Type} (l : List (String × α)) : Prop :=
  (l.map Prod.fst).Nodup

/-- A registry is well formed when every entry is stored under its own client
id, as `register_client` guarantees. -/
def RegistryWF (reg : ClientRegistry) : Prop :=
  ∀ k c, (k, c) ∈ reg.clients → c.client_id = k

/-- A concrete demonstration registry holding one registered client. -/
def regW : ClientRegistry :=
  register_client { clients := [] } "acme" "s3cr3t" "Acme Client" none

/-- The client stored in `regW`. -/
def clientW : OAuth2Client :=
  { client_id := "acme"
    client_secret_hash := hash_secret "s3cr3t"
    name := "Acme Client"
    scopes := [OAUTH2_SCOPE]
    enabled := true }

/-- A concrete attribute extractor: the message `"paris"` mentions a
destination, every other message carries no attributes. -/
def extDemo : String → AttrMap :=
  fun m => if m == "paris" then [("destination", "Paris")] else []

/-- A concrete reply function echoing the observed context; never raises. -/
def repDemo : String → AttrMap → Except String String :=
  fun _ c => .ok (String.intercalate "," (c.map (fun p => p.1 ++ "=" ++ p.2)))

/-- The concrete demonstration business layer. -/
def bizDemo : BusinessLayer := { extractAttrs := extDemo, reply := repDemo }

/-- A one-part message reading `"hello"`. -/
def msgHello : Option A2AMessage :=
  some { parts := [.rooted (some (.text "hello"))] }

/-- A one-part message reading `"paris"`. -/
def msgParis : Option A2AMessage :=
  some { parts := [.rooted (some (.text "paris"))] }

/-- A concrete never-raising reply function echoing the observed context. -/
def repPure : String → AttrMap → String :=
  fun _ c => String.intercalate "," (c.map (fun p => p.1 ++ "=" ++ p.2))

theorem lookup_cons {α : Type} (k : String) (v : α) (t : List (String × α)) (a : String) :
    ((k, v) :: t).lookup a = if a == k then some v else t.lookup a := by
  by_cases h : a == k <;> simp [List.lookup, h]

theorem mem_of_lookup {α : Type} (l : List (String × α)) (k : String) (v : α)
    (h : l.lookup k = some v) : (k, v) ∈ l := by
  induction l with
  | nil => simp [List.lookup] at h
  | cons p t ih =>
    obtain ⟨a, b⟩ := p
    rw [lookup_cons] at h
    by_cases hk : k == a
    · rw [if_pos hk] at h
      have hk' : k = a := by simpa using hk
      have hv : v = b := by simpa using h.symm
      subst hk'; subst hv
      exact List.mem_cons_self _ _
    · rw [if_neg hk] at h
      exact List.mem_cons_of_mem _ (ih h)

theorem dictSet_cons_eq {α : Type} (a : String) (b : α) (t : List (String × α))
    (k : String) (v : α) (h : (a == k) = true) :
    dictSet ((a, b) :: t) k v =
      (k, v) :: t.map (fun p => if p.1 == k then (k, v) else p) := by
  have h' : a = k := by simpa using h
  subst h'
  simp [dictSet]

theorem dictSet_cons_ne {α : Type} (a : String) (b : α) (t : List (String × α))
    (k : String) (v : α) (h : (a == k) = false) :
    dictSet ((a, b) :: t) k v = (a, b) :: dictSet t k v := by
  have h' : ¬ a = k := by simpa using h
  simp only [dictSet, List.any_cons, h, Bool.false_or]
  by_cases ht : t.any (fun p => p.1 == k)
  · simp [ht, h']
  · simp [ht, h']

theorem lookup_dictSet_self {α : Type} (l : List (String × α)) (k : String) (v : α) :
    (dictSet l k v).lookup k = some v := by
  induction l with
  | nil => simp [dictSet, List.lookup]
  | cons p t ih =>
    obtain ⟨a, b⟩ := p
    by_cases h : a == k
    · rw [dictSet_cons_eq a b t k v h, lookup_cons]
      simp
    · rw [dictSet_cons_ne a b t k v (by simpa using h), lookup_cons]
      have : ¬ (k == a) = true := by
        simp at h ⊢
        exact fun hh => h hh.symm
      simp [this, ih]

theorem lookup_map_overwrite_ne {α : Type} (l : List (String × α)) (k : String)
    (v : α) (a : String) (hne : a ≠ k) :
    (l.map (fun p => if p.1 == k then (k, v) else p)).lookup a = l.lookup a := by
  induction l with
  | nil => simp
  | cons p t ih =>
    obtain ⟨x, y⟩ := p
    by_cases hx : x = k
    · subst hx
      simp only [List.map_cons, if_pos (by simp : (x == x) = true)]
      rw [lookup_cons, lookup_cons]
      have : (a == x) = false := by simp [hne]
      simp only [this, if_neg, Bool.false_eq_true]
      simpa using ih
    · simp only [List.map_cons]
      rw [if_neg (by simp [hx])]
      rw [lookup_cons, lookup_cons]
      by_cases ha : a = x
      · simp [ha]
      · have : (a == x) = false := by simp [ha]
        simp only [this, if_neg, Bool.false_eq_true]
        simpa using ih

theorem lookup_dictSet_ne {α : Type} (l : List (String × α)) (k : String) (v : α)
    (a : String) (hne : a ≠ k) : (dictSet l k v).lookup a = l.lookup a := by
  unfold dictSet
  by_cases h : l.any (fun p => p.1 == k)
  · simp only [h, if_pos]
    exact lookup_map_overwrite_ne l k v a hne
  · rw [if_neg (by simpa using h)]
    induction l with
    | nil =>
      rw [List.nil_append, lookup_cons]
      have : (a == k) = false := by simp [hne]
      simp [this]
    | cons p t ih =>
      obtain ⟨x, y⟩ := p
      rw [List.cons_append, lookup_cons, lookup_cons]
      by_cases ha : a = x
      · simp [ha]
      · have hb : (a == x) = false := by simp [ha]
        simp only [hb, if_neg]
        simp only [List.any_cons, Bool.or_eq_true, not_or] at h
        exact ih (by simpa using h.2)

theorem lookup_eq_none_iff_any_false {α : Type} (l : List (String × α)) (k : String) :
    l.lookup k = none ↔ (l.any fun p => p.1 == k) = false := by
  induction l with
  | nil => simp [List.lookup]
  | cons p t ih =>
    obtain ⟨x, y⟩ := p
    rw [lookup_cons]
    by_cases h : k = x
    · subst h
      simp
    · have hb : (k == x) = false := by simp [h]
      have hb' : (x == k) = false := by simp; exact fun hh => h hh.symm
      simp [hb, hb', ih]

theorem lookup_filter_ne {α : Type} (l : List (String × α)) (k a : String)
    (hne : a ≠ k) : (l.filter fun p => p.1 != k).lookup a = l.lookup a := by
  induction l with
  | nil => simp
  | cons p t ih =>
    obtain ⟨x, y⟩ := p
    by_cases h : x = k
    · subst h
      have : ((x, y).1 != x) = false := by simp
      rw [List.filter_cons, if_neg (by simp [this])]
      rw [lookup_cons]
      have : (a == x) = false := by simp [hne]
      simp [this, ih]
    · rw [List.filter_cons, if_pos (by simpa using h)]
      rw [lookup_cons, lookup_cons]
      by_cases ha : a = x
      · simp [ha]
      · have : (a == x) = false := by simp [ha]
        simp [this, ih]

theorem lookup_filter_self {α : Type} (l : List (String × α)) (k : String) :
    (l.filter fun p => p.1 != k).lookup k = none := by
  induction l with
  | nil => simp
  | cons p t ih =>
    obtain ⟨x, y⟩ := p
    by_cases h : x = k
    · subst h
      rw [List.filter_cons, if_neg (by simp)]
      exact ih
    · rw [List.filter_cons, if_pos (by simpa using h)]
      rw [lookup_cons]
      have : (k == x) = false := by simp; exact fun hh => h hh.symm
      simp [this, ih]


theorem nodupKeys_nil {α : Type} : NodupKeys ([] : List (String × α)) := by
  simp [NodupKeys]

theorem nodupKeys_value_eq {α : Type} {l : List (String × α)} (h : NodupKeys l)
    {k : String} {v w : α} (hv : (k, v) ∈ l) (hw : (k, w) ∈ l) : v = w := by
  induction l with
  | nil => simp at hv
  | cons p t ih =>
    obtain ⟨x, y⟩ := p
    simp only [NodupKeys, List.map_cons, List.nodup_cons] at h
    rcases List.mem_cons.mp hv with hv1 | hv1 <;>
      rcases List.mem_cons.mp hw with hw1 | hw1
    · rw [Prod.mk.injEq] at hv1 hw1
      rw [hv1.2, hw1.2]
    · exfalso
      rw [Prod.mk.injEq] at hv1
      exact h.1 (by
        rw [← hv1.1]
        exact List.mem_map.mpr ⟨(k, w), hw1, rfl⟩)
    · exfalso
      rw [Prod.mk.injEq] at hw1
      exact h.1 (by
        rw [← hw1.1]
        exact List.mem_map.mpr ⟨(k, v), hv1, rfl⟩)
    · exact ih h.2 hv1 hw1

theorem nodupKeys_dictSet {α : Type} (l : List (String × α)) (k : String) (v : α)
    (h : NodupKeys l) : NodupKeys (dictSet l k v) := by
  unfold dictSet
  by_cases ha : l.any (fun p => p.1 == k)
  · simp only [ha, if_pos]
    have : List.map Prod.fst (l.map fun p => if p.1 == k then (k, v) else p) =
        List.map Prod.fst l := by
      rw [List.map_map]
      apply List.map_congr_left
      intro p _
      by_cases hp : p.1 = k
      · simp [hp]
      · simp [hp]
    unfold NodupKeys
    rw [this]
    exact h
  · rw [if_neg (by simpa using ha)]
    unfold NodupKeys
    rw [List.map_append]
    simp only [List.map_cons, List.map_nil]
    rw [List.nodup_append]
    refine ⟨h, by simp, ?_⟩
    intro a hmem
    simp only [List.mem_singleton]
    intro hak
    subst hak
    simp only [List.any_eq_true, not_exists] at ha
    simp only [List.mem_map] at hmem
    obtain ⟨p, hp, hpa⟩ := hmem
    simp at ha
    exact (ha p.1 p.2 (by simpa using hp)) hpa

theorem dictSet_mem_self {α : Type} (l : List (String × α)) (k : String) (v : α)
    (h : NodupKeys l) (hmem : (k, v) ∈ l) : dictSet l k v = l := by
  unfold dictSet
  have ha : (l.any fun p => p.1 == k) = true := by
    simp only [List.any_eq_true]
    exact ⟨(k, v), hmem, by simp⟩
  simp only [ha, if_pos]
  have : ∀ p ∈ l, (if p.1 == k then (k, v) else p) = p := by
    intro p hp
    by_cases hpk : p.1 = k
    · obtain ⟨px, py⟩ := p
      simp only at hpk
      subst hpk
      have : py = v := nodupKeys_value_eq h hp hmem
      simp [this]
    · simp [hpk]
  calc l.map (fun p => if p.1 == k then (k, v) else p) = l.map id := by
        exact List.map_congr_left this
    _ = l := List.map_id l

theorem nodupKeys_dictUpdate (l m : AttrMap)
    (h : NodupKeys l) : NodupKeys (dictUpdate l m) := by
  induction m generalizing l with
  | nil => simpa [dictUpdate]
  | cons p t ih =>
    obtain ⟨x, y⟩ := p
    have : dictUpdate l ((x, y) :: t) = dictUpdate (dictSet l x y) t := rfl
    rw [this]
    exact ih _ (nodupKeys_dictSet l x y h)

theorem dictUpdate_subset_self (l m : AttrMap)
    (h : NodupKeys l) (hsub : ∀ p ∈ m, p ∈ l) :
    dictUpdate l m = l := by
  induction m with
  | nil => rfl
  | cons p t ih =>
    obtain ⟨x, y⟩ := p
    have hstep : dictUpdate l ((x, y) :: t) = dictUpdate (dictSet l x y) t := rfl
    rw [hstep, dictSet_mem_self l x y h (hsub _ (List.mem_cons_self _ _))]
    exact ih (fun p hp => hsub p (List.mem_cons_of_mem _ hp))

theorem dictUpdate_self (l : AttrMap) (h : NodupKeys l) :
    dictUpdate l l = l :=
  dictUpdate_subset_self l l h (fun _ hp => hp)

/-- C3: token verification fails closed.  For every token string and current
time, `validate_access_token` returns either the decoded claims or `none`
(being a total function into `Option`, it never raises); it returns `none`
whenever the token is malformed, its signature does not verify, its audience
is wrong, or its expiry is not in the future — in particular an expired
token fails regardless of its signature — and whenever it returns claims
the token was a correctly signed, correctly addressed, unexpired JWT. -/
theorem token_verification_fails_closed (now : Int) (token : TokenStr) :
    (∀ raw, token = .malformed raw → validate_access_token now token = none) ∧
    (∀ p sig, token = .jwt p sig → sig ≠ jwtSign JWT_SECRET_KEY p →
      validate_access_token now token = none) ∧
    (∀ p sig, token = .jwt p sig → p.aud ≠ "travel-agent-a2a" →
      validate_access_token now token = none) ∧
    (∀ p sig, token = .jwt p sig → p.exp ≤ now →
      validate_access_token now token = none) ∧
    (∀ p, validate_access_token now token = some p →
      token = .jwt p (jwtSign JWT_SECRET_KEY p) ∧
        p.aud = "travel-agent-a2a" ∧ now < p.exp) := by
  refine ⟨?_, ?_, ?_, ?_, ?_⟩
  · intro raw h
    subst h
    rfl
  · intro p sig h hsig
    subst h
    simp [validate_access_token, hsig]
  · intro p sig h haud
    subst h
    simp only [validate_access_token]
    by_cases h1 : sig = jwtSign JWT_SECRET_KEY p
    · by_cases h2 : p.exp ≤ now <;> simp [h1, h2, haud]
    · simp [h1]
  · intro p sig h hexp
    subst h
    simp only [validate_access_token]
    by_cases h1 : sig = jwtSign JWT_SECRET_KEY p <;> simp [h1, hexp]
  · intro p h
    cases token with
    | malformed raw => simp [validate_access_token] at h
    | jwt q sig =>
      simp only [validate_access_token] at h
      by_cases h1 : sig = jwtSign JWT_SECRET_KEY q
      · by_cases h2 : q.exp ≤ now
        · simp [h1, h2] at h
        · by_cases h3 : q.aud = "travel-agent-a2a"
          · simp [h1, h2, h3] at h
            subst h
            exact ⟨by rw [h1], h3, by omega⟩
          · simp [h1, h2, h3] at h
      · simp [h1] at h

/-- Witness for C3: a malformed token is rejected at time 0. -/
theorem token_verification_fails_closed_witness :
    validate_access_token 0 (.malformed "not-a-jwt") = none :=
  (token_verification_fails_closed 0 (.malformed "not-a-jwt")).1 "not-a-jwt" rfl

theorem registryWF_empty : RegistryWF { clients := [] } := by
  intro k c h
  simp at h

theorem registryWF_register (reg : ClientRegistry) (cid sec name : String)
    (scopes : Option (List String)) (h : RegistryWF reg) :
    RegistryWF (register_client reg cid sec name scopes) := by
  intro k c hmem
  simp only [register_client, dictSet] at hmem
  by_cases ha : reg.clients.any (fun p => p.1 == cid)
  · simp only [ha, if_pos] at hmem
    rw [List.mem_map] at hmem
    obtain ⟨p, hp, hpc⟩ := hmem
    by_cases hpk : p.1 = cid
    · rw [if_pos (by simpa using hpk)] at hpc
      rw [Prod.mk.injEq] at hpc
      rw [← hpc.2, ← hpc.1]
    · rw [if_neg (by simpa using hpk)] at hpc
      exact h k c (by rw [hpc] at hp; exact hp)
  · rw [if_neg (by simpa using ha)] at hmem
    rcases List.mem_append.mp hmem with hmem | hmem
    · exact h k c hmem
    · simp at hmem
      rw [hmem.2, hmem.1]

/-- C1: token round-trip.  If `validate_client` authenticates a registered
`(client_id, secret)` pair, then verifying the token generated for the
returned client (at the issuance instant) yields claims whose `client_id` is
the registered id and whose granted scopes are all among the client's
allowed scopes. -/
theorem token_round_trip (reg : ClientRegistry) (hwf : RegistryWF reg)
    (client_id client_secret : String) (c : OAuth2Client)
    (hv : validate_client reg client_id client_secret = some c)
    (requested_scopes : Option (List String)) (now : Int) (jti : String) :
    ∃ p, validate_access_token now
        (generate_access_token c requested_scopes now jti).access_token = some p ∧
      p.client_id = client_id ∧ ∀ s ∈ p.scopes, s ∈ c.scopes := by
  have hcid : c.client_id = client_id := by
    simp only [validate_client] at hv
    cases hl : reg.clients.lookup client_id with
    | none => rw [hl] at hv; simp at hv
    | some cl =>
      rw [hl] at hv
      have hmem := mem_of_lookup _ _ _ hl
      by_cases he : cl.enabled
      · by_cases hh : cl.client_secret_hash = hash_secret client_secret
        · simp [he, hh] at hv
          rw [← hv]
          exact hwf _ _ hmem
        · simp [he, hh] at hv
      · simp [he] at hv
  refine ⟨{ client_id := c.client_id
            scopes := computeGrantedScopes c requested_scopes
            exp := now + TOKEN_EXPIRY_SECONDS
            iat := now
            jti := jti
            iss := "travel-agent-oauth2"
            aud := "travel-agent-a2a" }, ?_, ?_, ?_⟩
  · show validate_access_token now (jwt_encode _ JWT_SECRET_KEY) = some _
    simp only [jwt_encode, validate_access_token]
    rw [if_neg (by simp)]
    rw [if_neg (by simp [TOKEN_EXPIRY_SECONDS])]
    rw [if_neg (by simp)]
  · exact hcid
  · intro s hs
    simp only at hs
    cases hr : requested_scopes with
    | none => rw [hr] at hs; exact hs
    | some rs =>
      cases rs with
      | nil => rw [hr] at hs; exact hs
      | cons a t =>
        rw [hr] at hs
        simp only [computeGrantedScopes] at hs
        have := List.of_mem_filter hs
        simpa using this

/-- Witness for C1: the round trip holds for the concretely registered
client `("acme", "s3cr3t")`. -/
theorem token_round_trip_witness :
    validate_client regW "acme" "s3cr3t" = some clientW ∧
    ∃ p, validate_access_token 1000
        (generate_access_token clientW (some ["a2a:travel-agent", "other"]) 1000
          "jti-0").access_token = some p ∧
      p.client_id = "acme" ∧ ∀ s ∈ p.scopes, s ∈ clientW.scopes := by
  have hvw : validate_client regW "acme" "s3cr3t" = some clientW := by
    simp only [regW, clientW, register_client, validate_client, dictSet, OAUTH2_SCOPE]
    norm_num [List.lookup]
  exact ⟨hvw, token_round_trip regW
    (registryWF_register _ _ _ _ _ registryWF_empty) "acme" "s3cr3t" clientW
    hvw (some ["a2a:travel-agent", "other"]) 1000 "jti-0"⟩

/-- C6: scope narrowing.  The granted scopes computed at issuance are exactly
the requested scopes that are also allowed for the client; with no requested
scopes (`None` or the empty list, both falsy) they default to the full
allowed set; hence a scope outside the client's allowed scopes never appears;
and the issued token's payload carries exactly these granted scopes. -/
theorem scope_narrowing (client : OAuth2Client)
    (requested_scopes : Option (List String)) (now : Int) (jti : String) :
    (∀ rs, requested_scopes = some rs → rs ≠ [] →
      computeGrantedScopes client requested_scopes =
        rs.filter (fun s => client.scopes.contains s)) ∧
    ((requested_scopes = none ∨ requested_scopes = some []) →
      computeGrantedScopes client requested_scopes = client.scopes) ∧
    (∀ s, s ∉ client.scopes → s ∉ computeGrantedScopes client requested_scopes) ∧
    (∃ sig, (generate_access_token client requested_scopes now jti).access_token =
      .jwt { client_id := client.client_id
             scopes := computeGrantedScopes client requested_scopes
             exp := now + TOKEN_EXPIRY_SECONDS
             iat := now
             jti := jti
             iss := "travel-agent-oauth2"
             aud := "travel-agent-a2a" } sig) := by
  refine ⟨?_, ?_, ?_, ?_⟩
  · intro rs hrs hne
    subst hrs
    cases rs with
    | nil => exact absurd rfl hne
    | cons a t => rfl
  · intro h
    rcases h with h | h <;> (subst h; rfl)
  · intro s hs hmem
    cases hr : requested_scopes with
    | none =>
      rw [hr] at hmem
      exact hs hmem
    | some rs =>
      cases rs with
      | nil =>
        rw [hr] at hmem
        exact hs hmem
      | cons a t =>
        rw [hr] at hmem
        simp only [computeGrantedScopes] at hmem
        have := List.of_mem_filter hmem
        exact hs (by simpa using this)
  · exact ⟨_, rfl⟩

/-- Witness for C6: a request for an allowed and a disallowed scope grants
only the allowed one. -/
theorem scope_narrowing_witness :
    computeGrantedScopes clientW (some ["a2a:travel-agent", "evil"]) =
      ["a2a:travel-agent", "evil"].filter
        (fun s => clientW.scopes.contains s) :=
  (scope_narrowing clientW (some ["a2a:travel-agent", "evil"]) 0 "j").1
    ["a2a:travel-agent", "evil"] rfl (by simp)

/-- C2: auth-gateway decision table with authentication required, first match
wins.  The token endpoint path is delegated with no bearer check; public
allow-list paths pass through unauthenticated; a GET to root passes through
unauthenticated; otherwise an absent or non-Bearer Authorization header is
rejected 401/`unauthorized`; a Bearer token failing verification is rejected
401/`invalid_token`; a valid token attaches its `client_id` and scopes and
continues downstream. -/
theorem auth_gateway_decision_table (now : Int) (req : HttpRequest) :
    (req.path = "/oauth/token" → dispatch true now req = .tokenGrant) ∧
    (req.path ≠ "/oauth/token" → req.path ∈ PUBLIC_PATHS →
      dispatch true now req = .passThrough) ∧
    (req.path ∉ PUBLIC_PATHS → req.method = "GET" → req.path = "/" →
      dispatch true now req = .passThrough) ∧
    (req.path ∉ PUBLIC_PATHS → ¬(req.method = "GET" ∧ req.path = "/") →
      (req.auth = .absent ∨ ∃ raw, req.auth = .other raw) →
      dispatch true now req = .reject 401 "unauthorized") ∧
    (req.path ∉ PUBLIC_PATHS → ¬(req.method = "GET" ∧ req.path = "/") →
      ∀ t, req.auth = .bearer t → validate_access_token now t = none →
      dispatch true now req = .reject 401 "invalid_token") ∧
    (req.path ∉ PUBLIC_PATHS → ¬(req.method = "GET" ∧ req.path = "/") →
      ∀ t p, req.auth = .bearer t → validate_access_token now t = some p →
      dispatch true now req = .authenticated p.client_id p.scopes) := by
  have hmem : ("/oauth/token" : String) ∈ PUBLIC_PATHS := by
    simp [PUBLIC_PATHS]
  refine ⟨?_, ?_, ?_, ?_, ?_, ?_⟩
  · intro h
    simp [dispatch, h]
  · intro hne hp
    simp only [dispatch]
    rw [if_neg (by simpa using hne)]
    rw [if_pos (by simpa using hp)]
  · intro hp hgreq hroot
    simp only [dispatch]
    rw [if_neg (by simp; intro hq; exact hp (hq ▸ hmem))]
    rw [if_neg (by simpa using fun h => hp (List.mem_of_elem_eq_true h))]
    rw [if_pos (by simp [hgreq, hroot])]
  · intro hp hnr hauth
    simp only [dispatch]
    rw [if_neg (by simp; intro hq; exact hp (hq ▸ hmem))]
    rw [if_neg (by simpa using fun h => hp (List.mem_of_elem_eq_true h))]
    rw [if_neg (by simp; intro h1 h2; exact hnr ⟨h1, h2⟩)]
    rw [if_pos trivial]
    rcases hauth with h | ⟨raw, h⟩ <;> rw [h]
  · intro hp hnr t ht hv
    simp only [dispatch]
    rw [if_neg (by simp; intro hq; exact hp (hq ▸ hmem))]
    rw [if_neg (by simpa using fun h => hp (List.mem_of_elem_eq_true h))]
    rw [if_neg (by simp; intro h1 h2; exact hnr ⟨h1, h2⟩)]
    rw [if_pos trivial, ht]
    simp [hv]
  · intro hp hnr t pl ht hv
    simp only [dispatch]
    rw [if_neg (by simp; intro hq; exact hp (hq ▸ hmem))]
    rw [if_neg (by simpa using fun h => hp (List.mem_of_elem_eq_true h))]
    rw [if_neg (by simp; intro h1 h2; exact hnr ⟨h1, h2⟩)]
    rw [if_pos trivial, ht]
    simp [hv]

/-- Witness for C2: a POST to the protocol root with no Authorization header
is rejected 401/`unauthorized`. -/
theorem auth_gateway_decision_table_witness :
    dispatch true 0 { path := "/", method := "POST", auth := .absent } =
      .reject 401 "unauthorized" :=
  (auth_gateway_decision_table 0
      { path := "/", method := "POST", auth := .absent }).2.2.2.1
    (by simp [PUBLIC_PATHS]) (by simp) (Or.inl rfl)

/-- C5: token-endpoint error mapping.  A grant type other than
`client_credentials` yields 400/`unsupported_grant_type`; with the right
grant type but credentials missing from both the body and the Basic header,
400/`invalid_request`; with credentials present but failing registry
validation, 401/`invalid_client`; and when all checks pass, a 200 token
response generated for the validated client. -/
theorem token_endpoint_error_mapping (reg : ClientRegistry) (req : TokenRequest)
    (now : Int) (jti : String) :
    (req.body.grant_type ≠ some "client_credentials" →
      token_endpoint reg req now jti = .err 400 "unsupported_grant_type") ∧
    (req.body.grant_type = some "client_credentials" →
      (strFalsy (effectiveCredentials req).1 = true ∨
        strFalsy (effectiveCredentials req).2 = true) →
      token_endpoint reg req now jti = .err 400 "invalid_request") ∧
    (req.body.grant_type = some "client_credentials" →
      strFalsy (effectiveCredentials req).1 = false →
      strFalsy (effectiveCredentials req).2 = false →
      validate_client reg ((effectiveCredentials req).1.getD "")
          ((effectiveCredentials req).2.getD "") = none →
      token_endpoint reg req now jti = .err 401 "invalid_client") ∧
    (∀ client, req.body.grant_type = some "client_credentials" →
      strFalsy (effectiveCredentials req).1 = false →
      strFalsy (effectiveCredentials req).2 = false →
      validate_client reg ((effectiveCredentials req).1.getD "")
          ((effectiveCredentials req).2.getD "") = some client →
      token_endpoint reg req now jti =
        .ok (generate_access_token client
          (if (req.body.scope.getD "") != "" then
            some (((req.body.scope.getD "").splitOn " ").filter (fun s => s != ""))
          else none) now jti)) := by
  refine ⟨?_, ?_, ?_, ?_⟩
  · intro h
    simp only [token_endpoint]
    rw [if_pos (by simpa using h)]
  · intro hg hfal
    simp only [token_endpoint]
    rw [if_neg (by simp [hg])]
    rw [if_pos (by rcases hfal with h | h <;> simp [h])]
  · intro hg h1 h2 hv
    simp only [token_endpoint]
    rw [if_neg (by simp [hg])]
    rw [if_neg (by simp [h1, h2])]
    rw [hv]
  · intro client hg h1 h2 hv
    simp only [token_endpoint]
    rw [if_neg (by simp [hg])]
    rw [if_neg (by simp [h1, h2])]
    rw [hv]

/-- Witness for C5: a `password` grant request is rejected with
400/`unsupported_grant_type`. -/
theorem token_endpoint_error_mapping_witness :
    token_endpoint regW
      { body := { grant_type := some "password", client_id := some "acme",
                  client_secret := some "s3cr3t", scope := none },
        basicAuth := none } 0 "j" = .err 400 "unsupported_grant_type" :=
  (token_endpoint_error_mapping regW
      { body := { grant_type := some "password", client_id := some "acme",
                  client_secret := some "s3cr3t", scope := none },
        basicAuth := none } 0 "j").1 (by simp)

theorem get_or_create_context_lookup (context_id : Option String)
    (freshId : String) (st : ExecutorState) :
    ∃ ctx, ((get_or_create_context context_id freshId st).2).contexts.lookup
      (get_or_create_context context_id freshId st).1 = some ctx := by
  simp only [get_or_create_context]
  cases h : st.contexts.lookup (resolve_context_id context_id freshId) with
  | some c =>
    refine ⟨c, ?_⟩
    simp [h]
  | none =>
    simp only [h]
    exact ⟨_, lookup_dictSet_self _ _ _⟩

/-- C4: dispatcher terminal guarantee.  Every `execute` call emits the
`working` notice followed by exactly one terminal status, which is
`completed` or `failed`; it is `failed` precisely when the business layer
raised on the call it was handed; and since the model is a total function
into `ExecOutcome`, no exception escapes `execute`. -/
theorem dispatcher_terminal_guarantee (biz : BusinessLayer)
    (message : Option A2AMessage) (context_id : Option String)
    (freshId : String) (st : ExecutorState) :
    ∃ ev : StatusEvent,
      (executor_execute biz message context_id freshId st).events =
        [{ state := .working, message := workingNotice }, ev] ∧
      ev.state.isTerminal = true ∧
      (ev.state = .completed ∨ ev.state = .failed) ∧
      (ev.state = .failed ↔
        ∃ call ∈ (executor_execute biz message context_id freshId st).businessCalls,
          ∃ e, biz.reply call.1 call.2 = .error e) := by
  by_cases hm : extract_message_text message = ""
  · refine ⟨{ state := .completed, message := emptyInputReply }, ?_, rfl, Or.inl rfl, ?_⟩
    · simp [executor_execute, hm]
    · simp [executor_execute, hm, TaskState.isTerminal]
  · obtain ⟨ctx, hctx⟩ := get_or_create_context_lookup context_id freshId st
    simp only [executor_execute]
    rw [if_neg (by simpa using hm)]
    simp only [executor_process_message, hctx]
    cases hrep : biz.reply (extract_message_text message)
        (dictUpdate
          (if ctx.user_context.isEmpty
            then ((get_or_create_context context_id freshId st).2).agentCtx
            else dictUpdate ((get_or_create_context context_id freshId st).2).agentCtx
              ctx.user_context)
          (biz.extractAttrs (extract_message_text message))) with
    | ok response =>
      refine ⟨{ state := .completed, message := response }, ?_, rfl, Or.inl rfl, ?_⟩
      · simp only [agent_process_message, hrep]
      · simp only [agent_process_message, hrep]
        constructor
        · intro h
          exact absurd h (by simp)
        · intro h
          simp only [List.mem_singleton] at h
          obtain ⟨call, hcall, e, he⟩ := h
          subst hcall
          rw [hrep] at he
          exact absurd he (by simp)
    | error e =>
      refine ⟨{ state := .failed,
                message := "I encountered an error processing your request: " ++ e },
              ?_, rfl, Or.inr rfl, ?_⟩
      · simp only [agent_process_message, hrep]
      · simp only [agent_process_message, hrep]
        simp only [List.mem_singleton, true_iff]
        exact ⟨_, rfl, e, hrep⟩

/-- C8: empty-input outcome.  When the message is absent, has no parts, or
its text-bearing parts join and trim to the empty string, `execute` emits
`working` then `completed` with the fixed non-empty clarifying reply, never
invokes the business layer, and leaves the state exactly as context
resolution left it (no turn is recorded in the session). -/
theorem empty_input_outcome (biz : BusinessLayer) (message : Option A2AMessage)
    (context_id : Option String) (freshId : String) (st : ExecutorState)
    (h : message = none ∨
      ∃ m, message = some m ∧ (m.parts = [] ∨ joinedPartsText m = "")) :
    (executor_execute biz message context_id freshId st).events =
      [{ state := .working, message := workingNotice },
       { state := .completed, message := emptyInputReply }] ∧
    emptyInputReply ≠ "" ∧
    (executor_execute biz message context_id freshId st).businessCalls = [] ∧
    (executor_execute biz message context_id freshId st).state =
      (get_or_create_context context_id freshId st).2 := by
  have hm : extract_message_text message = "" := by
    rcases h with h | ⟨m, hm, h⟩
    · rw [h]; rfl
    · subst hm
      rcases h with h | h
      · simp [extract_message_text, h]
      · simp only [extract_message_text]
        by_cases hp : m.parts.isEmpty <;> simp [hp, h]
  exact ⟨by simp [executor_execute, hm],
    by simp [emptyInputReply],
    by simp [executor_execute, hm],
    by simp [executor_execute, hm]⟩

/-- Witness for C8: an absent message yields the clarifying `completed`
outcome with no business call and no recorded turn. -/
theorem empty_input_outcome_witness :
    (executor_execute bizDemo none none "w8" initialExecutorState).events =
      [{ state := .working, message := workingNotice },
       { state := .completed, message := emptyInputReply }] ∧
    emptyInputReply ≠ "" ∧
    (executor_execute bizDemo none none "w8" initialExecutorState).businessCalls = [] ∧
    (executor_execute bizDemo none none "w8" initialExecutorState).state =
      (get_or_create_context none "w8" initialExecutorState).2 :=
  empty_input_outcome bizDemo none none "w8" initialExecutorState (Or.inl rfl)

/-- C10: reset frame property.  `clear_context` removes at most the entry for
the given id from the context table — every other id's stored session is
unchanged — an id not in the table leaves the table unchanged (and the model
is total, so nothing is raised), and a subsequent resolve of the cleared id
yields a session with empty history and empty attributes. -/
theorem clear_context_frame (st : ExecutorState) (context_id : String) :
    (∀ other, other ≠ context_id →
      (clear_context context_id st).contexts.lookup other =
        st.contexts.lookup other) ∧
    (st.contexts.lookup context_id = none →
      (clear_context context_id st).contexts = st.contexts) ∧
    (context_id ≠ "" → ∀ freshId,
      (get_or_create_context (some context_id) freshId
          (clear_context context_id st)).1 = context_id ∧
      ((get_or_create_context (some context_id) freshId
          (clear_context context_id st)).2).contexts.lookup context_id =
        some { context_id := context_id, history := [], user_context := [] }) := by
  refine ⟨?_, ?_, ?_⟩
  · intro other hne
    simp only [clear_context]
    by_cases ha : st.contexts.any (fun p => p.1 == context_id)
    · simp only [ha, if_pos]
      exact lookup_filter_ne _ _ _ hne
    · simp [ha]
  · intro hnone
    simp only [clear_context]
    rw [if_neg (by simp [(lookup_eq_none_iff_any_false _ _).mp hnone])]
  · intro hcid freshId
    have hres : resolve_context_id (some context_id) freshId = context_id := by
      simp [resolve_context_id, hcid]
    have hlk : (clear_context context_id st).contexts.lookup context_id = none := by
      simp only [clear_context]
      by_cases ha : st.contexts.any (fun p => p.1 == context_id)
      · simp only [ha, if_pos]
        exact lookup_filter_self _ _
      · simp only [ha, Bool.false_eq_true, if_false]
        exact (lookup_eq_none_iff_any_false _ _).mpr (Bool.eq_false_iff.mpr ha)
    constructor
    · simp [get_or_create_context, hres, hlk]
    · simp only [get_or_create_context, hres, hlk]
      exact lookup_dictSet_self _ _ _

/-- Witness for C10: clearing context `"a"` from a two-session table leaves
session `"b"` intact, clearing a missing id is a no-op on the table, and
re-resolving `"a"` yields an empty session. -/
theorem clear_context_frame_witness :
    (({ contexts :=
          [("a", { context_id := "a", history := [("user", "hi")],
                   user_context := [("destination", "Paris")] }),
           ("b", { context_id := "b", history := [("user", "yo")],
                   user_context := [("budget", "100")] })]
        agentCtx := [] } : ExecutorState).contexts.lookup "b" =
      (clear_context "a"
        { contexts :=
            [("a", { context_id := "a", history := [("user", "hi")],
                     user_context := [("destination", "Paris")] }),
             ("b", { context_id := "b", history := [("user", "yo")],
                     user_context := [("budget", "100")] })]
          agentCtx := [] }).contexts.lookup "b") ∧
    (clear_context "missing" initialExecutorState).contexts =
      initialExecutorState.contexts ∧
    ((get_or_create_context (some "a") "f"
        (clear_context "a"
          { contexts :=
              [("a", { context_id := "a", history := [("user", "hi")],
                       user_context := [("destination", "Paris")] })]
            agentCtx := [] })).2).contexts.lookup "a" =
      some { context_id := "a", history := [], user_context := [] } := by
  refine ⟨?_, ?_, ?_⟩
  · exact ((clear_context_frame _ "a").1 "b" (by decide)).symm
  · exact (clear_context_frame initialExecutorState "missing").2.1 rfl
  · exact (((clear_context_frame _ "a").2.2 (by decide)) "f").2

/-- Counterexample to C9 as stated: handling `"hello"` under a brand-new
session id `"s"` observes different business-layer context — and produces a
different reply — depending solely on traffic previously processed under the
unrelated session id `"other"`, because the single shared `TravelAgent`
keeps its `user_context` across sessions. -/
theorem fresh_session_isolation_cex :
    (executor_execute bizDemo msgHello none "s"
        (executor_execute bizDemo msgParis (some "other") "x"
          initialExecutorState).state).businessCalls ≠
      (executor_execute bizDemo msgHello none "s"
        initialExecutorState).businessCalls ∧
    (executor_execute bizDemo msgHello none "s"
        (executor_execute bizDemo msgParis (some "other") "x"
          initialExecutorState).state).events ≠
      (executor_execute bizDemo msgHello none "s"
        initialExecutorState).events := by
  constructor <;> decide

/-- C9 as amended: a message handled under a fresh session id does start from
a session with empty history and attributes, but the business layer observes
the shared travel agent's current accumulated attributes merged with the
message's own extraction — not the (empty) session attributes alone — so
the observed context is invariant only across runs that agree on the shared
agent context. -/
theorem fresh_session_observed_context (biz : BusinessLayer)
    (message : Option A2AMessage) (t : String) (context_id : Option String)
    (freshId : String) (st : ExecutorState)
    (ht : extract_message_text message = t) (htne : t ≠ "")
    (hfresh : st.contexts.lookup (resolve_context_id context_id freshId) = none) :
    ((get_or_create_context context_id freshId st).2).contexts.lookup
        (resolve_context_id context_id freshId) =
      some { context_id := resolve_context_id context_id freshId
             history := [], user_context := [] } ∧
    (executor_execute biz message context_id freshId st).businessCalls =
      [(t, dictUpdate st.agentCtx (biz.extractAttrs t))] ∧
    (∀ st' : ExecutorState, st'.agentCtx = st.agentCtx →
      st'.contexts.lookup (resolve_context_id context_id freshId) = none →
      (executor_execute biz message context_id freshId st').businessCalls =
        (executor_execute biz message context_id freshId st).businessCalls) := by
  have hone : ∀ s : ExecutorState,
      s.contexts.lookup (resolve_context_id context_id freshId) = none →
      ((get_or_create_context context_id freshId s).2).contexts.lookup
          (resolve_context_id context_id freshId) =
        some { context_id := resolve_context_id context_id freshId
               history := [], user_context := [] } ∧
      (executor_execute biz message context_id freshId s).businessCalls =
        [(t, dictUpdate s.agentCtx (biz.extractAttrs t))] := by
    intro s hf
    have hcreated : ((get_or_create_context context_id freshId s).2).contexts.lookup
        (resolve_context_id context_id freshId) =
        some { context_id := resolve_context_id context_id freshId
               history := [], user_context := [] } := by
      simp only [get_or_create_context, hf]
      exact lookup_dictSet_self _ _ _
    refine ⟨hcreated, ?_⟩
    have hid : (get_or_create_context context_id freshId s).1 =
        resolve_context_id context_id freshId := by
      simp only [get_or_create_context, hf]
    have hst : ((get_or_create_context context_id freshId s).2).agentCtx =
        s.agentCtx := by
      simp only [get_or_create_context, hf]
    simp only [executor_execute]
    rw [if_neg (by simp [ht, htne])]
    simp only [executor_process_message, hid, hcreated, ht]
    simp only [List.isEmpty_nil, if_pos, agent_process_message, hst]
    cases biz.reply t (dictUpdate s.agentCtx (biz.extractAttrs t)) <;> simp
  refine ⟨(hone st hfresh).1, (hone st hfresh).2, ?_⟩
  intro st' hag hf'
  rw [(hone st' hf').2, (hone st hfresh).2, hag]

/-- Witness for the amended C9: for the concrete polluted run of the
counterexample, the business layer observes exactly the shared agent residue
`destination=Paris` merged with `"hello"`'s (empty) extraction. -/
theorem fresh_session_observed_context_witness :
    (executor_execute bizDemo msgHello none "s"
        (executor_execute bizDemo msgParis (some "other") "x"
          initialExecutorState).state).businessCalls =
      [("hello",
        dictUpdate (executor_execute bizDemo msgParis (some "other") "x"
          initialExecutorState).state.agentCtx (bizDemo.extractAttrs "hello"))] :=
  (fresh_session_observed_context bizDemo msgHello "hello" none "s"
      (executor_execute bizDemo msgParis (some "other") "x"
        initialExecutorState).state
      (by decide) (by decide) (by decide)).2.1

theorem executor_execute_ok_step (ext : String → AttrMap)
    (rep : String → AttrMap → String) (message : Option A2AMessage) (t : String)
    (context_id : Option String) (freshId : String) (st : ExecutorState)
    (ctx : ConversationContext)
    (ht : extract_message_text message = t) (htne : t ≠ "")
    (hlk : ((get_or_create_context context_id freshId st).2).contexts.lookup
      (get_or_create_context context_id freshId st).1 = some ctx) :
    executor_execute { extractAttrs := ext, reply := fun m c => Except.ok (rep m c) }
        message context_id freshId st =
      { events := [{ state := .working, message := workingNotice },
                   { state := .completed,
                     message := rep t (dictUpdate
                       (if ctx.user_context.isEmpty
                         then ((get_or_create_context context_id freshId st).2).agentCtx
                         else dictUpdate
                           ((get_or_create_context context_id freshId st).2).agentCtx
                           ctx.user_context) (ext t)) }]
        state :=
          { contexts := dictSet
              ((get_or_create_context context_id freshId st).2).contexts
              (get_or_create_context context_id freshId st).1
              { ctx with
                user_context := dictUpdate
                  (if ctx.user_context.isEmpty
                    then ((get_or_create_context context_id freshId st).2).agentCtx
                    else dictUpdate
                      ((get_or_create_context context_id freshId st).2).agentCtx
                      ctx.user_context) (ext t)
                history := ctx.history ++
                  [("user", t),
                   ("agent", rep t (dictUpdate
                     (if ctx.user_context.isEmpty
                       then ((get_or_create_context context_id freshId st).2).agentCtx
                       else dictUpdate
                         ((get_or_create_context context_id freshId st).2).agentCtx
                         ctx.user_context) (ext t)))] }
            agentCtx := dictUpdate
              (if ctx.user_context.isEmpty
                then ((get_or_create_context context_id freshId st).2).agentCtx
                else dictUpdate
                  ((get_or_create_context context_id freshId st).2).agentCtx
                  ctx.user_context) (ext t) }
        businessCalls := [(t, dictUpdate
          (if ctx.user_context.isEmpty
            then ((get_or_create_context context_id freshId st).2).agentCtx
            else dictUpdate
              ((get_or_create_context context_id freshId st).2).agentCtx
              ctx.user_context) (ext t))] } := by
  simp only [executor_execute]
  rw [if_neg (by simp [ht, htne])]
  simp only [executor_process_message, hlk, agent_process_message, ht]
  simp

/-- C7: session continuity.  Starting from a fresh executor, handling message
A with no session id (allocating fresh context id `cid`) and then message B
under `cid` makes B's business call observe A's extracted attributes merged
last-write-wins with B's own, and appends B's user/agent turns to the same
session's history after A's turns. -/
theorem session_continuity (ext : String → AttrMap)
    (rep : String → AttrMap → String) (msgA msgB : Option A2AMessage)
    (tA tB : String) (cid fidB : String) (st0 : ExecutorState)
    (hA : extract_message_text msgA = tA) (htA : tA ≠ "")
    (hB : extract_message_text msgB = tB) (htB : tB ≠ "")
    (hcid : cid ≠ "") (hfresh : st0.contexts.lookup cid = none)
    (hagent : st0.agentCtx = []) :
    (executor_execute { extractAttrs := ext, reply := fun m c => Except.ok (rep m c) }
        msgB (some cid) fidB
        (executor_execute { extractAttrs := ext, reply := fun m c => Except.ok (rep m c) }
          msgA none cid st0).state).businessCalls =
      [(tB, dictUpdate (dictUpdate [] (ext tA)) (ext tB))] ∧
    ∃ ctx : ConversationContext,
      ((executor_execute { extractAttrs := ext, reply := fun m c => Except.ok (rep m c) }
          msgB (some cid) fidB
          (executor_execute { extractAttrs := ext, reply := fun m c => Except.ok (rep m c) }
            msgA none cid st0).state).state).contexts.lookup cid = some ctx ∧
      ctx.history =
        [("user", tA), ("agent", rep tA (dictUpdate [] (ext tA))),
         ("user", tB),
         ("agent", rep tB (dictUpdate (dictUpdate [] (ext tA)) (ext tB)))] := by
  have hres : resolve_context_id none cid = cid := rfl
  have hgA : get_or_create_context none cid st0 =
      (cid, { contexts := dictSet st0.contexts cid
                { context_id := cid, history := [], user_context := [] }
              agentCtx := st0.agentCtx }) := by
    simp [get_or_create_context, resolve_context_id, hfresh]
  have hlkA : ((get_or_create_context none cid st0).2).contexts.lookup
      (get_or_create_context none cid st0).1 =
      some { context_id := cid, history := [], user_context := [] } := by
    rw [hgA]
    exact lookup_dictSet_self _ _ _
  have houtA := executor_execute_ok_step ext rep msgA tA none cid st0
    { context_id := cid, history := [], user_context := [] } hA htA hlkA
  rw [hgA, hagent] at houtA
  simp only [List.isEmpty_nil, if_pos, List.nil_append] at houtA
  have hstA : (executor_execute
      { extractAttrs := ext, reply := fun m c => Except.ok (rep m c) }
      msgA none cid st0).state =
      { contexts := dictSet (dictSet st0.contexts cid
          { context_id := cid, history := [], user_context := [] }) cid
          { context_id := cid
            history := [("user", tA), ("agent", rep tA (dictUpdate [] (ext tA)))]
            user_context := dictUpdate [] (ext tA) }
        agentCtx := dictUpdate [] (ext tA) } := by
    rw [houtA]
  have hlkA2 : ((executor_execute
      { extractAttrs := ext, reply := fun m c => Except.ok (rep m c) }
      msgA none cid st0).state).contexts.lookup cid =
      some { context_id := cid
             history := [("user", tA), ("agent", rep tA (dictUpdate [] (ext tA)))]
             user_context := dictUpdate [] (ext tA) } := by
    rw [hstA]
    exact lookup_dictSet_self _ _ _
  have hresB : resolve_context_id (some cid) fidB = cid := by
    simp [resolve_context_id, hcid]
  have hgB : get_or_create_context (some cid) fidB
      (executor_execute
        { extractAttrs := ext, reply := fun m c => Except.ok (rep m c) }
        msgA none cid st0).state =
      (cid, (executor_execute
        { extractAttrs := ext, reply := fun m c => Except.ok (rep m c) }
        msgA none cid st0).state) := by
    simp [get_or_create_context, hresB, hlkA2]
  have hlkB : ((get_or_create_context (some cid) fidB
      (executor_execute
        { extractAttrs := ext, reply := fun m c => Except.ok (rep m c) }
        msgA none cid st0).state).2).contexts.lookup
      (get_or_create_context (some cid) fidB
        (executor_execute
          { extractAttrs := ext, reply := fun m c => Except.ok (rep m c) }
          msgA none cid st0).state).1 =
      some { context_id := cid
             history := [("user", tA), ("agent", rep tA (dictUpdate [] (ext tA)))]
             user_context := dictUpdate [] (ext tA) } := by
    rw [hgB]
    exact hlkA2
  have houtB := executor_execute_ok_step ext rep msgB tB (some cid) fidB
    (executor_execute
      { extractAttrs := ext, reply := fun m c => Except.ok (rep m c) }
      msgA none cid st0).state
    { context_id := cid
      history := [("user", tA), ("agent", rep tA (dictUpdate [] (ext tA)))]
      user_context := dictUpdate [] (ext tA) } hB htB hlkB
  rw [hgB] at houtB
  have hagctxA : ((executor_execute
      { extractAttrs := ext, reply := fun m c => Except.ok (rep m c) }
      msgA none cid st0).state).agentCtx = dictUpdate [] (ext tA) := by
    rw [hstA]
  rw [hagctxA] at houtB
  have hnodup : NodupKeys (dictUpdate [] (ext tA)) :=
    nodupKeys_dictUpdate [] (ext tA) nodupKeys_nil
  have hagent0 :
      (if ({ context_id := cid
             history := [("user", tA), ("agent", rep tA (dictUpdate [] (ext tA)))]
             user_context := dictUpdate [] (ext tA) } :
            ConversationContext).user_context.isEmpty
        then dictUpdate [] (ext tA)
        else dictUpdate (dictUpdate [] (ext tA)) (dictUpdate [] (ext tA))) =
      dictUpdate [] (ext tA) := by
    by_cases h : (dictUpdate [] (ext tA)).isEmpty
    · simp [h]
    · simp [h, dictUpdate_self _ hnodup]
  rw [hagent0] at houtB
  rw [houtB]
  refine ⟨rfl, ?_⟩
  refine ⟨_, lookup_dictSet_self _ _ _, ?_⟩
  simp

/-- Witness for C7: message `"paris"` opens fresh session `"s"`, then message
`"hello"` under `"s"` observes `destination=Paris` merged with its own
(empty) extraction, with both turns of each message in order. -/
theorem session_continuity_witness :
    (executor_execute { extractAttrs := extDemo, reply := fun m c => Except.ok (repPure m c) }
        msgHello (some "s") "f2"
        (executor_execute { extractAttrs := extDemo, reply := fun m c => Except.ok (repPure m c) }
          msgParis none "s" initialExecutorState).state).businessCalls =
      [("hello", dictUpdate (dictUpdate [] (extDemo "paris")) (extDemo "hello"))] ∧
    ∃ ctx : ConversationContext,
      ((executor_execute { extractAttrs := extDemo, reply := fun m c => Except.ok (repPure m c) }
          msgHello (some "s") "f2"
          (executor_execute { extractAttrs := extDemo, reply := fun m c => Except.ok (repPure m c) }
            msgParis none "s" initialExecutorState).state).state).contexts.lookup "s" =
        some ctx ∧
      ctx.history =
        [("user", "paris"), ("agent", repPure "paris" (dictUpdate [] (extDemo "paris"))),
         ("user", "hello"),
         ("agent", repPure "hello"
           (dictUpdate (dictUpdate [] (extDemo "paris")) (extDemo "hello")))] :=
  session_continuity extDemo repPure msgParis msgHello "paris" "hello" "s" "f2"
    initialExecutorState (by decide) (by decide) (by decide) (by decide)
    (by decide) rfl rfl

/-- Witness for C4: the guarantee instantiated at a concrete non-empty
message on a fresh executor. -/
theorem dispatcher_terminal_guarantee_witness :
    ∃ ev : StatusEvent,
      (executor_execute bizDemo msgHello none "w4" initialExecutorState).events =
        [{ state := .working, message := workingNotice }, ev] ∧
      ev.state.isTerminal = true ∧
      (ev.state = .completed ∨ ev.state = .failed) ∧
      (ev.state = .failed ↔
        ∃ call ∈ (executor_execute bizDemo msgHello none "w4"
            initialExecutorState).businessCalls,
          ∃ e, bizDemo.reply call.1 call.2 = .error e) :=
  dispatcher_terminal_guarantee bizDemo msgHello none "w4" initialExecutorState

end TravelAgentA2A
